import Mathlib

/-!
# Verification of the BCH confidential-transactions core

Shallow embedding, in Lean 4, of the cryptographic core of the
`bitcoin-cash-confidential-transactions` repository:

* `src/zk.js` — Pedersen commitments, the 64-bit Sigma range proof
  (`generateSigmaRangeProof`, `serializeProof`, `deserializeProof`,
  `verifySigmaRangeProof`), proof hashing, and the amount-proof envelope
  (`buildAmountProofEnvelope`, `verifyAmountProofEnvelope`);
* `src/transcript.js` — the CTv1 envelope framing
  (`buildProofEnvelope`, `parseProofEnvelope`);
* `src/pedersen.js` — `pedersenCommit64` and the shared second generator `H`;
* `src/covenants.js` — `createCovenant`;
* `src/proofs.js` — `extractPayHashFromRedeemScript`,
  `assertCovenantWillPassEqVerifies`.

Modelling conventions:

* Byte strings are `List Nat`, each element intended `< 256`.
* JS `bigint` scalars are `Nat`; the source reduces scalars mod the curve
  order `n` explicitly (`% n`) or via `Point.Fn.fromBytes`, and we mirror
  each reduction site.  JS `(e - e_sim + n) % n` (a `bigint` subtraction
  that can go below `e`) is written `(e + n - e_sim) % n` in `Nat`; the two
  agree because `e_sim < n`.
* secp256k1 points: the secp256k1 group is cyclic of prime order `n`
  with generator `G` (cofactor 1), hence isomorphic, as a group, to
  `ZMod n`.  We represent a point by its discrete logarithm base `G`:
  `Pt := ZMod secpN`, `G = 1`, point addition is `+`, and
  `P.multiply(k) = (k : Pt) * P`.  The second generator `H = getH()` is a
  fixed point whose discrete log is unknown; it enters as a parameter
  `hH : Pt`.
* External library functions (`@noble/hashes` sha256, point compression
  `Point.toBytes(true)` / `Point.fromBytes`, `_hash160`) are not part of
  the repository; they enter as function parameters (`sha256B`, `ptB`,
  `ptOfB`, `hash160B`) with their interface contracts (33-byte output,
  decode-of-encode) as explicit hypotheses where a theorem needs them.
* JS functions that `throw` are modelled with `Option`/`Except`: `none` /
  `.error` at exactly the source's `throw` sites.  This includes the
  noble library's own guard: `Point.multiply(k)` throws `invalid scalar`
  unless `1 ≤ k < n` (the repository's tests acknowledge this guard and
  deliberately avoid zero scalars).  `generateSigmaRangeProof`,
  `pedersenCommit` and `pedersenCommit64` therefore return `none` exactly
  when one of their multiplications would receive a zero (or, for
  `pedersenCommit`, out-of-range) scalar, in the source's evaluation
  order.
* `Uint8Array.prototype.slice(a, b)` clamps out-of-range indices; its
  translation `(l.drop a).take (b - a)` has the same clamping behaviour.
-/

namespace CT

/-- Order of the secp256k1 group.  `src/zk.js` obtains it as
`Point.CURVE().n`; `src/pedersen.js` hardcodes the same constant as
`ORDER_N`. -/
def secpN : Nat :=
  0xFFFFFFFFFFFFFFFFFFFFFFFFFFFFFFFEBAAEDCE6AF48A03BBFD25E8CD0364141

/-- Byte strings (`Uint8Array` in the source). -/
abbrev Bytes := List Nat

/-- secp256k1 points in discrete-log representation (see header comment). -/
abbrev Pt := ZMod secpN

instance : NeZero secpN := ⟨by decide⟩

/-- The base point `G = Point.BASE`; in discrete-log representation it is `1`. -/
def Gpt : Pt := 1

/-- `Point.ZERO`, the identity. -/
def ptZero : Pt := 0

/-- `P.add(Q)`. -/
def ptAdd (P Q : Pt) : Pt := P + Q

/-- `P.subtract(Q)`. -/
def ptSub (P Q : Pt) : Pt := P - Q

/-- `P.multiply(k)`: scalar multiplication, in discrete-log
representation multiplication by `k mod n`.  This is the total group
operation; the noble guard that makes `multiply` throw outside
`[1, n)` is modelled by explicit `none`-guards at every call site that
can receive such a scalar (see the header comment). -/
def ptMul (k : Nat) (P : Pt) : Pt := (k : Pt) * P

/-! ## Byte-level utilities

`src/utils.js` is not among the provided source files; the helpers below
are modelled from the spec (§4.2 "Scalars are 32-byte big-endian in
serialization", §4.3/§6 "variable-length integer encoding,
smallest-first" i.e. Bitcoin CompactSize, and the `uint64le` name).
-/

/-- Modelled from the spec: `bigIntToBytes(v, len)` from the missing
`src/utils.js` — fixed-width big-endian encoding (zk.js: "Scalars are
32-byte big-endian in serialization"). -/
def bigIntToBytes (v len : Nat) : Bytes :=
  match len with
  | 0 => []
  | k + 1 => bigIntToBytes (v / 256) k ++ [v % 256]

/-- Modelled from the spec: `bytesToBigInt` from the missing
`src/utils.js` — big-endian interpretation of a byte string. -/
def bytesToBigInt (b : Bytes) : Nat :=
  b.foldl (fun acc x => acc * 256 + x) 0

/-- Fixed-width little-endian encoding (helper for `uint64le` and
`varInt`). -/
def natToBytesLE (v len : Nat) : Bytes :=
  match len with
  | 0 => []
  | k + 1 => v % 256 :: natToBytesLE (v / 256) k

/-- Little-endian interpretation of a byte string (helper for
`decodeVarInt`). -/
def bytesToNatLE (b : Bytes) : Nat :=
  b.foldr (fun x acc => acc * 256 + x) 0

/-- Modelled from the spec: `uint64le` from the missing `src/utils.js` —
8-byte little-endian encoding of a 64-bit integer. -/
def uint64le (v : Nat) : Bytes := natToBytesLE v 8

/-- Modelled from the spec: `varInt` from the missing `src/utils.js` —
Bitcoin CompactSize encoding, smallest-first (§4.3). -/
def varInt (v : Nat) : Bytes :=
  if v < 0xfd then [v]
  else if v < 0x10000 then 0xfd :: natToBytesLE v 2
  else if v < 0x100000000 then 0xfe :: natToBytesLE v 4
  else 0xff :: natToBytesLE v 8

/-- Result of `decodeVarInt`: the decoded value and the number of bytes
consumed. -/
structure VarIntInfo where
  value : Nat
  length : Nat
  deriving Repr, DecidableEq

/-- Modelled from the spec: `decodeVarInt(bytes, off)` from the missing
`src/utils.js` — CompactSize decoding at an offset; `none` when the
input is too short at the offset. -/
def decodeVarInt (b : Bytes) (off : Nat) : Option VarIntInfo :=
  match (b.drop off).head? with
  | none => none
  | some first =>
    if first < 0xfd then some ⟨first, 1⟩
    else
      let k : Nat := if first = 0xfd then 2 else if first = 0xfe then 4 else 8
      let chunk := (b.drop (off + 1)).take k
      if chunk.length = k then some ⟨bytesToNatLE chunk, 1 + k⟩ else none

/-! ## Envelope framing (`src/transcript.js`) -/

/-- `vbytes(u8)`: CompactSize length prefix followed by the bytes. -/
def vbytes (u8 : Bytes) : Bytes := varInt u8.length ++ u8

/-- The 4-byte envelope magic `'CTv1'`. -/
def magicCTv1 : Bytes := [0x43, 0x54, 0x76, 0x31]

/-- Arguments of `buildProofEnvelope` (the JS object parameter);
`protocolTag` is already UTF-8 encoded. -/
structure EnvelopeArgs where
  protocolTag : Bytes
  rangeBits : Nat
  ephemPub33 : Bytes
  H33 : Bytes
  assetId32 : Option Bytes
  outIndex : Nat
  extraCtx : Bytes
  coreProofBytes : Bytes

/-- The envelope header:
`vbytes(tag) | uint64le(rangeBits) | vbytes(ephemPub33) | vbytes(H33) |
vbytes(assetId32 or empty) | uint64le(outIndex) | vbytes(extraCtx)`. -/
def envHeader (a : EnvelopeArgs) : Bytes :=
  vbytes a.protocolTag ++ uint64le a.rangeBits ++ vbytes a.ephemPub33 ++
    vbytes a.H33 ++ vbytes (a.assetId32.getD []) ++ uint64le a.outIndex ++
    vbytes a.extraCtx

/-- `buildProofEnvelope`: `"CTv1" | vbytes(header) | vbytes(coreProofBytes)`. -/
def buildProofEnvelope (a : EnvelopeArgs) : Bytes :=
  magicCTv1 ++ vbytes (envHeader a) ++ vbytes a.coreProofBytes

/-- `parseProofEnvelope(envelope)`: checks the magic, then reads the
CompactSize-framed header and core.  Throw sites are `none`.  Note that
the JS `envelope.slice(off, off + len)` clamps, which `drop`/`take`
reproduce, and that nothing after the framed core is examined. -/
def parseProofEnvelope (envelope : Bytes) : Option (Bytes × Bytes) :=
  if envelope.length < 4 then none            -- 'envelope too short'
  else if envelope.take 4 ≠ magicCTv1 then none  -- 'bad envelope magic'
  else
    match decodeVarInt envelope 4 with
    | none => none
    | some hdrLenInfo =>
      let off1 := 4 + hdrLenInfo.length
      let header := (envelope.drop off1).take hdrLenInfo.value
      let off2 := off1 + hdrLenInfo.value
      match decodeVarInt envelope off2 with
      | none => none
      | some coreLenInfo =>
        let core := (envelope.drop (off2 + coreLenInfo.length)).take coreLenInfo.value
        some (header, core)

/-! ## Byte-codec lemmas -/

theorem natToBytesLE_length (v len : Nat) : (natToBytesLE v len).length = len := by
  induction len generalizing v with
  | zero => rfl
  | succ k ih => simp [natToBytesLE, ih]

theorem bytesToNatLE_natToBytesLE (v len : Nat) :
    bytesToNatLE (natToBytesLE v len) = v % 256 ^ len := by
  induction len generalizing v with
  | zero => simp [natToBytesLE, bytesToNatLE, Nat.mod_one]
  | succ k ih =>
    simp only [natToBytesLE, bytesToNatLE, List.foldr_cons] at *
    rw [ih, show (256 : Nat) ^ (k + 1) = 256 * 256 ^ k by ring, Nat.mod_mul]
    omega

/-- Helper: decoding right after a prefix when the encoding is a
multi-byte CompactSize `tag :: payload` with `payload.length = k`. -/
theorem decodeVarInt_tagged (pre post payload : Bytes) (tag k : Nat)
    (htag : ¬ tag < 0xfd)
    (hk : (if tag = 0xfd then 2 else if tag = 0xfe then 4 else 8) = k)
    (hplen : payload.length = k) :
    decodeVarInt (pre ++ ((tag :: payload) ++ post)) pre.length =
      some ⟨bytesToNatLE payload, 1 + k⟩ := by
  have hdrop : (pre ++ (tag :: (payload ++ post))).drop pre.length =
      tag :: (payload ++ post) := List.drop_left' rfl
  have hdrop1 : (pre ++ (tag :: (payload ++ post))).drop (pre.length + 1) =
      payload ++ post := by
    rw [show pre.length + 1 = (pre ++ [tag]).length by simp,
      show pre ++ (tag :: (payload ++ post)) = (pre ++ [tag]) ++ (payload ++ post) by simp]
    exact List.drop_left' rfl
  have htake : (payload ++ post).take k = payload := List.take_left' hplen
  unfold decodeVarInt
  rw [List.cons_append, hdrop, List.head?_cons]
  simp only [if_neg htag, hk, hdrop1, htake, hplen, if_pos rfl]
  simp

/-- Decoding a CompactSize at the position where one was encoded recovers
the value and the encoded length, for values below `2^64`. -/
theorem decodeVarInt_at_mark (pre post : Bytes) (v : Nat) (hv : v < 2 ^ 64) :
    decodeVarInt (pre ++ (varInt v ++ post)) pre.length =
      some ⟨v, (varInt v).length⟩ := by
  by_cases h1 : v < 0xfd
  · have hdrop : (pre ++ (varInt v ++ post)).drop pre.length = varInt v ++ post :=
      List.drop_left' rfl
    simp [decodeVarInt, hdrop, varInt, h1]
  · by_cases h2 : v < 0x10000
    · have hvi : varInt v = 0xfd :: natToBytesLE v 2 := by simp [varInt, h1, h2]
      rw [hvi, decodeVarInt_tagged pre post _ 0xfd 2 (by norm_num) (by norm_num)
        (natToBytesLE_length v 2), bytesToNatLE_natToBytesLE,
        show v % 256 ^ 2 = v from Nat.mod_eq_of_lt (by norm_num; omega)]
      simp [hvi, natToBytesLE_length]
    · by_cases h3 : v < 0x100000000
      · have hvi : varInt v = 0xfe :: natToBytesLE v 4 := by simp [varInt, h1, h2, h3]
        rw [hvi, decodeVarInt_tagged pre post _ 0xfe 4 (by norm_num) (by norm_num)
          (natToBytesLE_length v 4), bytesToNatLE_natToBytesLE,
          show v % 256 ^ 4 = v from Nat.mod_eq_of_lt (by norm_num; omega)]
        simp [hvi, natToBytesLE_length]
      · have hvi : varInt v = 0xff :: natToBytesLE v 8 := by simp [varInt, h1, h2, h3]
        rw [hvi, decodeVarInt_tagged pre post _ 0xff 8 (by norm_num) (by norm_num)
          (natToBytesLE_length v 8), bytesToNatLE_natToBytesLE,
          show v % 256 ^ 8 = v from Nat.mod_eq_of_lt (by norm_num; omega)]
        simp [hvi, natToBytesLE_length]

/-- Parsing any well-framed byte sequence
`"CTv1" || vbytes(hdr) || vbytes(core) || junk` — with arbitrary trailing
bytes — recovers exactly the framed header and core.
(`parseProofEnvelope` never looks past the framed core.) -/
theorem parse_frame (hdr core junk : Bytes)
    (hh : hdr.length < 2 ^ 64) (hc : core.length < 2 ^ 64) :
    parseProofEnvelope (magicCTv1 ++ vbytes hdr ++ vbytes core ++ junk) =
      some (hdr, core) := by
  have henv : magicCTv1 ++ vbytes hdr ++ vbytes core ++ junk
      = magicCTv1 ++ (varInt hdr.length ++ (hdr ++
          (varInt core.length ++ (core ++ junk)))) := by
    simp [vbytes, List.append_assoc]
  set rest1 : Bytes := hdr ++ (varInt core.length ++ (core ++ junk)) with hrest1
  set env : Bytes := magicCTv1 ++ (varInt hdr.length ++ rest1) with henvdef
  rw [show magicCTv1 ++ vbytes hdr ++ vbytes core ++ junk = env from henv]
  have hlen4 : ¬ env.length < 4 := by
    rw [henvdef]; simp [magicCTv1]
  have htake4 : env.take 4 = magicCTv1 := by
    rw [henvdef]; exact List.take_left' rfl
  have hd1 : decodeVarInt env 4 = some ⟨hdr.length, (varInt hdr.length).length⟩ := by
    rw [henvdef, show (4 : Nat) = magicCTv1.length from rfl]
    exact decodeVarInt_at_mark magicCTv1 rest1 hdr.length hh
  have hsplit1 : env = (magicCTv1 ++ varInt hdr.length) ++ (hdr ++
      (varInt core.length ++ (core ++ junk))) := by
    rw [henvdef, hrest1]; simp [List.append_assoc]
  have hoff1 : 4 + (varInt hdr.length).length = (magicCTv1 ++ varInt hdr.length).length := by
    simp [magicCTv1]; omega
  have hx1 : (env.drop (4 + (varInt hdr.length).length)).take hdr.length = hdr := by
    rw [hsplit1, hoff1, List.drop_left]
    exact List.take_left hdr _
  have hsplit2 : env = ((magicCTv1 ++ varInt hdr.length) ++ hdr) ++
      (varInt core.length ++ (core ++ junk)) := by
    rw [hsplit1]; simp [List.append_assoc]
  have hoff2 : 4 + (varInt hdr.length).length + hdr.length =
      ((magicCTv1 ++ varInt hdr.length) ++ hdr).length := by
    simp [magicCTv1]; omega
  have hd2 : decodeVarInt env (4 + (varInt hdr.length).length + hdr.length) =
      some ⟨core.length, (varInt core.length).length⟩ := by
    rw [hsplit2, hoff2]
    exact decodeVarInt_at_mark _ _ core.length hc
  have hsplit3 : env = (((magicCTv1 ++ varInt hdr.length) ++ hdr) ++
      varInt core.length) ++ (core ++ junk) := by
    rw [hsplit2]; simp [List.append_assoc]
  have hoff3 : 4 + (varInt hdr.length).length + hdr.length + (varInt core.length).length =
      ((((magicCTv1 ++ varInt hdr.length) ++ hdr) ++ varInt core.length)).length := by
    simp [magicCTv1]; omega
  have hx2 : (env.drop (4 + (varInt hdr.length).length + hdr.length +
      (varInt core.length).length)).take core.length = core := by
    rw [hsplit3, hoff3, List.drop_left]
    exact List.take_left core junk
  unfold parseProofEnvelope
  rw [if_neg hlen4, if_neg (by simp [htake4]), hd1]
  simp only [hd2, hx1, hx2]

/-- Parsing a built envelope (with arbitrary trailing bytes appended)
recovers exactly the framed header fields and core proof bytes. -/
theorem parse_build_with_junk (a : EnvelopeArgs) (junk : Bytes)
    (hh : (envHeader a).length < 2 ^ 64) (hc : a.coreProofBytes.length < 2 ^ 64) :
    parseProofEnvelope (buildProofEnvelope a ++ junk) =
      some (envHeader a, a.coreProofBytes) := by
  have : buildProofEnvelope a ++ junk =
      magicCTv1 ++ vbytes (envHeader a) ++ vbytes a.coreProofBytes ++ junk := by
    simp [buildProofEnvelope, List.append_assoc]
  rw [this]
  exact parse_frame (envHeader a) a.coreProofBytes junk hh hc

/-! ## Sigma range proof (`src/zk.js`)

The definitions below are parametrised by the external collaborators:
`sha256B` (the `@noble/hashes` sha256), `hH` (the shared second generator
`H = getH()`, a fixed point of unknown discrete log), `ptB` (compressed
point serialisation `P.toBytes(true)`) and `ptOfB` (`Point.fromBytes`,
`none` on invalid encodings).
-/

/-- `BITS = 64`: the protocol-fixed bit width. -/
def BITS : Nat := 64

/-- One per-bit OR-proof tuple `{A0, A1, e0, z0, e1, z1}`. -/
structure BitProof where
  A0 : Pt
  A1 : Pt
  e0 : Nat
  z0 : Nat
  e1 : Nat
  z1 : Nat
  deriving DecidableEq

instance : Inhabited BitProof := ⟨⟨0, 0, 0, 0, 0, 0⟩⟩

/-- The Sigma range proof object returned by `generateSigmaRangeProof`
and consumed by `verifySigmaRangeProof`. -/
structure SigmaProof where
  C : Pt
  commitments : List Pt
  proofs : List BitProof
  C_bytes : Bytes
  deriving DecidableEq

section Sigma

variable (sha256B : Bytes → Bytes) (hH : Pt) (ptB : Pt → Bytes)
variable (ptOfB : Bytes → Option Pt)

/-- `Point.Fn.fromBytes`: interpret 32 bytes big-endian and reduce mod `n`
("v2-safe reduction"). -/
def fnFromBytes (b : Bytes) : Nat := bytesToBigInt b % secpN

/-- `Number((vBig >> BigInt(i)) & 1n)`: bit `i` of `v`. -/
def bitAt (v i : Nat) : Nat := (v >>> i) &&& 1

/-- The per-bit deterministic blinding scalar
`ri = Fn.fromBytes(sha256(seed || uint64le(i) || uint64le(0)))`. -/
def riAt (seed : Bytes) (i : Nat) : Nat :=
  fnFromBytes (sha256B (seed ++ uint64le i ++ uint64le 0))

/-- The per-bit commitment `C_i = bit ? H + ri*G : ri*G`. -/
def CiAt (v : Nat) (seed : Bytes) (i : Nat) : Pt :=
  if bitAt v i = 1 then ptAdd hH (ptMul (riAt sha256B seed i) Gpt)
  else ptMul (riAt sha256B seed i) Gpt

/-- The aggregated blinding `r`, accumulated as
`r = (r + (1n << i) * ri) % n` over the 64 bits. -/
def rAgg (seed : Bytes) : Nat :=
  (List.range BITS).foldl
    (fun r i => (r + (1 <<< i) * riAt sha256B seed i) % secpN) 0

/-- The per-bit Sigma OR-proof tuple, exactly as produced by the second
loop of `generateSigmaRangeProof`.  The JS
`e_real = (e - e_sim + n) % n` is written `(e + n - e_sim) % n` (the two
agree because `e_sim < n`). -/
def bitProofAt (v : Nat) (seed : Bytes) (i : Nat) : BitProof :=
  let bit := bitAt v i
  let ri := riAt sha256B seed i
  let Ci := CiAt sha256B hH v seed i
  let D0 := Ci
  let D1 := ptSub Ci hH
  let Dsim := if bit = 1 then D0 else D1      -- real = bit; sim side statement
  let kReal := fnFromBytes (sha256B (seed ++ uint64le i ++ uint64le 1))
  let AReal := ptMul kReal Gpt
  let eSim := fnFromBytes (sha256B (seed ++ uint64le i ++ uint64le 2))
  let zSim := fnFromBytes (sha256B (seed ++ uint64le i ++ uint64le 3))
  let ASim := ptSub (ptMul zSim Gpt) (ptMul eSim Dsim)
  let A0 := if bit = 0 then AReal else ASim
  let A1 := if bit = 0 then ASim else AReal
  let e := fnFromBytes (sha256B (ptB A0 ++ ptB A1 ++ ptB Ci))
  let eReal := (e + secpN - eSim) % secpN
  let zReal := (kReal + eReal * ri) % secpN
  { A0 := A0, A1 := A1,
    e0 := if bit = 0 then eReal else eSim,
    z0 := if bit = 0 then zReal else zSim,
    e1 := if bit = 1 then eReal else eSim,
    z1 := if bit = 1 then zReal else zSim }

/-- The aggregate `sum_i 2^i * C_i` computed by both the generator's
developer guard and the verifier (`aggC`/`computedC`), indexing the
commitment list per bit. -/
def aggregateCommitments (cs : List Pt) : Pt :=
  (List.range BITS).foldl
    (fun acc i => ptAdd acc (ptMul (1 <<< i) (cs.getD i ptZero))) ptZero

/-- Guard of the commit loop: `G.multiply(ri)` (both branches of the
`C_i` ternary) throws `invalid scalar` when the derived `ri` is zero
mod `n`; the loop completes iff every per-bit blinding is nonzero. -/
def riOkAll (seed : Bytes) : Bool :=
  (List.range BITS).all (fun i => riAt sha256B seed i != 0)

/-- Guard of the OR-proof loop: `G.multiply(k_real)`, `G.multiply(z_sim)`
and `D_sim.multiply(e_sim)` throw `invalid scalar` when the derived
scalar is zero mod `n`. -/
def branchScalarsOk (seed : Bytes) : Bool :=
  (List.range BITS).all (fun i =>
    (fnFromBytes (sha256B (seed ++ uint64le i ++ uint64le 1)) != 0) &&
    (fnFromBytes (sha256B (seed ++ uint64le i ++ uint64le 2)) != 0) &&
    (fnFromBytes (sha256B (seed ++ uint64le i ++ uint64le 3)) != 0))

/-- `generateSigmaRangeProof(v, seedBytes)`.  `none` at every `throw`
site, in the source's evaluation order: `v` out of 64-bit range; the
library's `invalid scalar` guard at `G.multiply(ri)` in the commit loop,
at `H.multiply(vBig)` (hit by every call with `v = 0`; the in-range `v`
is otherwise a valid scalar since `2^64 < n`), at `G.multiply(r)`, and
at the per-bit `G.multiply(k_real)` / `G.multiply(z_sim)` /
`D_sim.multiply(e_sim)`; and the internal aggregate-mismatch developer
guard.  The remaining multiplications (`commitments[i].multiply(1n << i)`)
always receive scalars in `[1, n)`. -/
def generateSigmaRangeProof (v : Nat) (seedBytes : Bytes) : Option SigmaProof :=
  if v ≥ 2 ^ 64 then none          -- 'v out of 64-bit range' (v < 0 impossible in Nat)
  else if ¬ riOkAll sha256B seedBytes then none   -- commit loop: G.multiply(0)
  else if v = 0 then none                          -- H.multiply(0n)
  else if rAgg sha256B seedBytes = 0 then none     -- G.multiply(0)
  else if ¬ branchScalarsOk sha256B seedBytes then none  -- OR-proof loop
  else
    let commitments := (List.range BITS).map (CiAt sha256B hH v seedBytes)
    let r := rAgg sha256B seedBytes
    let C := ptAdd (ptMul v hH) (ptMul r Gpt)
    let proofs := (List.range BITS).map (bitProofAt sha256B hH ptB v seedBytes)
    if aggregateCommitments commitments = C then
      some { C := C, commitments := commitments, proofs := proofs, C_bytes := ptB C }
    else none                       -- 'Aggregate mismatch…' developer guard

/-- The per-bit verifier checks: Fiat–Shamir consistency
`(e0 + e1) % n == H(A0 || A1 || C_i)` and the two OR-proof equations
`z*G == A + e*D`. -/
def checkBit (p : BitProof) (Ci : Pt) : Bool :=
  let e := fnFromBytes (sha256B (ptB p.A0 ++ ptB p.A1 ++ ptB Ci))
  decide ((p.e0 + p.e1) % secpN = e) &&
  decide (ptMul (p.z0 % secpN) Gpt = ptAdd p.A0 (ptMul (p.e0 % secpN) Ci)) &&
  decide (ptMul (p.z1 % secpN) Gpt = ptAdd p.A1 (ptMul (p.e1 % secpN) (ptSub Ci hH)))

/-- `verifySigmaRangeProof(proof)`: the aggregate-commitment check plus
all 64 per-bit checks. -/
def verifySigmaRangeProof (proof : SigmaProof) : Bool :=
  decide (aggregateCommitments proof.commitments = proof.C) &&
  (List.range BITS).all
    (fun i => checkBit sha256B hH ptB (proof.proofs.getD i default)
      (proof.commitments.getD i ptZero))

end Sigma

/-! ## Arithmetic helper lemmas for the Sigma proofs -/

theorem natCast_mod_secpN (a : Nat) : ((a % secpN : Nat) : Pt) = (a : Pt) := by
  conv_rhs => rw [← Nat.mod_add_div a secpN]
  push_cast
  simp [ZMod.natCast_self]

section Serial

variable (sha256B : Bytes → Bytes) (hH : Pt) (ptB : Pt → Bytes)
variable (ptOfB : Bytes → Option Pt)

/-- One per-bit tuple as serialized:
`A0(33) || A1(33) || e0(32) || z0(32) || e1(32) || z1(32)`. -/
def serializeBitProof (p : BitProof) : Bytes :=
  ptB p.A0 ++ ptB p.A1 ++ bigIntToBytes p.e0 32 ++ bigIntToBytes p.z0 32 ++
    bigIntToBytes p.e1 32 ++ bigIntToBytes p.z1 32

/-- `serializeProof`:
`C(33) || C_i(33)*BITS || [A0 || A1 || e0 || z0 || e1 || z1] * BITS`,
indexing the lists per bit as the source loop does. -/
def serializeProof (pr : SigmaProof) : Bytes :=
  pr.C_bytes ++
    ((List.range BITS).map (fun i => ptB (pr.commitments.getD i ptZero))).flatten ++
    ((List.range BITS).map (fun i => serializeBitProof ptB (pr.proofs.getD i default))).flatten

/-- Cursor-style reader for `BITS` compressed points, 33 bytes each
(`Point.fromBytes(bytes.slice(pos, pos+33))`, throw = `none`). -/
def readPoints : Nat → Bytes → Option (List Pt × Bytes)
  | 0, b => some ([], b)
  | k + 1, b =>
    match ptOfB (b.take 33) with
    | none => none
    | some p =>
      match readPoints k (b.drop 33) with
      | none => none
      | some (ps, rest) => some (p :: ps, rest)

/-- Cursor-style reader for one serialized per-bit tuple. -/
def readBitProof (b : Bytes) : Option (BitProof × Bytes) :=
  match ptOfB (b.take 33) with
  | none => none
  | some A0 =>
    let b1 := b.drop 33
    match ptOfB (b1.take 33) with
    | none => none
    | some A1 =>
      let b2 := b1.drop 33
      let e0 := bytesToBigInt (b2.take 32)
      let b3 := b2.drop 32
      let z0 := bytesToBigInt (b3.take 32)
      let b4 := b3.drop 32
      let e1 := bytesToBigInt (b4.take 32)
      let b5 := b4.drop 32
      let z1 := bytesToBigInt (b5.take 32)
      let b6 := b5.drop 32
      some (⟨A0, A1, e0, z0, e1, z1⟩, b6)

/-- Cursor-style reader for `BITS` per-bit tuples. -/
def readBitProofs : Nat → Bytes → Option (List BitProof × Bytes)
  | 0, b => some ([], b)
  | k + 1, b =>
    match readBitProof ptOfB b with
    | none => none
    | some (p, rest) =>
      match readBitProofs k rest with
      | none => none
      | some (ps, rest2) => some (p :: ps, rest2)

/-- `deserializeProof`, the inverse of `serializeProof`.  Bytes past the
last tuple are ignored, as in the source (the final `pos` is unused). -/
def deserializeProof (bytes : Bytes) : Option SigmaProof :=
  let C_bytes := bytes.take 33
  match ptOfB C_bytes with
  | none => none
  | some C =>
    match readPoints ptOfB BITS (bytes.drop 33) with
    | none => none
    | some (commitments, rest) =>
      match readBitProofs ptOfB BITS rest with
      | none => none
      | some (proofs, _) =>
        some { C := C, commitments := commitments, proofs := proofs, C_bytes := C_bytes }

/-! ## Proof hash and amount envelope (`src/zk.js`) -/

/-- `computeProofHash`: Bitcoin-style `sha256(sha256(bytes))`. -/
def computeProofHash (b : Bytes) : Bytes := sha256B (sha256B b)

/-- UTF-8 bytes of the protocol tag `'BCH-CT/Sigma64-v1'`. -/
def protocolTagBytes : Bytes :=
  [0x42, 0x43, 0x48, 0x2d, 0x43, 0x54, 0x2f, 0x53, 0x69, 0x67, 0x6d, 0x61,
   0x36, 0x34, 0x2d, 0x76, 0x31]

/-- The record returned by `buildAmountProofEnvelope`. -/
structure AmountEnvelopeResult where
  envelope : Bytes
  proofHash : Bytes
  coreProofBytes : Bytes
  coreHashBytes : Bytes
  commitmentC : Pt
  commitmentC33 : Bytes

/-- `buildAmountProofEnvelope({value, zkSeed, ephemPub33, assetId32,
outIndex, extraCtx})`.  `none` at the three input-validation `throw`
sites (value range, seed length, ephemeral-key length) and for the
generator's internal guard. -/
def buildAmountProofEnvelope (value : Nat) (zkSeed ephemPub33 : Bytes)
    (assetId32 : Option Bytes) (outIndex : Nat) (extraCtx : Bytes) :
    Option AmountEnvelopeResult :=
  if value ≥ 2 ^ 64 then none
  else if zkSeed.length ≠ 32 then none
  else if ephemPub33.length ≠ 33 then none
  else
    match generateSigmaRangeProof sha256B hH ptB value zkSeed with
    | none => none
    | some proof =>
      let coreProofBytes := serializeProof ptB proof
      let coreHashBytes := computeProofHash sha256B coreProofBytes
      let H33 := ptB hH          -- toCompressed(H), the shared Pedersen H
      let envelope := buildProofEnvelope
        { protocolTag := protocolTagBytes, rangeBits := BITS,
          ephemPub33 := ephemPub33, H33 := H33, assetId32 := assetId32,
          outIndex := outIndex, extraCtx := extraCtx,
          coreProofBytes := coreProofBytes }
      some { envelope := envelope
             proofHash := computeProofHash sha256B envelope
             coreProofBytes := coreProofBytes
             coreHashBytes := coreHashBytes
             commitmentC := proof.C
             commitmentC33 := proof.C_bytes }

/-- `verifyAmountProofEnvelope(envelope)`: parse the envelope, deserialize
the core, check the internal Sigma range proof.  The header is parsed but
not otherwise consulted.  `none` models a thrown parse/deserialize
error. -/
def verifyAmountProofEnvelope (envelope : Bytes) : Option Bool :=
  match parseProofEnvelope envelope with
  | none => none
  | some (_, core) =>
    match deserializeProof ptOfB core with
    | none => none
    | some proof => some (verifySigmaRangeProof sha256B hH ptB proof)

end Serial

/-! ## Pedersen commitments (`src/zk.js` and `src/pedersen.js`) -/

section Pedersen

variable (hH : Pt) (assetHfn : Bytes → Pt)

/-- `pedersenCommit(v, r)` from `src/zk.js`: `C = v*H + r*G`, with the
blinding reduced mod `n` (the JS `(r % n + n) % n` equals `r % n` for
the non-negative scalars modelled here).  `v` is passed to
`H.multiply(vBig)` **unreduced**, so the library's `invalid scalar`
guard throws unless `1 ≤ v < n`; `G.multiply(rBig)` then throws when the
reduced blinding is zero.  `none` at those throws, in evaluation
order. -/
def pedersenCommit (v r : Nat) : Option Pt :=
  if v = 0 ∨ secpN ≤ v then none          -- H.multiply(vBig) invalid scalar
  else if r % secpN = 0 then none          -- G.multiply(rBig) invalid scalar
  else some (ptAdd (ptMul v hH) (ptMul (r % secpN) Gpt))

/-- `getAssetH(assetId)` from `src/pedersen.js`: the shared `H` for a
null asset id, a tag-derived per-asset generator otherwise (the
`hashToPoint` derivation is external, parametrised as `assetHfn`). -/
def getAssetH : Option Bytes → Pt
  | none => hH
  | some aid => assetHfn aid

/-- `pedersenCommit64(value, r, assetId)` from `src/pedersen.js`:
`G.multiply(v).add(H*.multiply(blind))` with `blind = r mod ORDER_N`,
i.e. `v*G + r*H*`.  `none` at the value-range `throw` and at the
library's `invalid scalar` guard: `G.multiply(v)` throws when `v = 0`
(an in-range `v` is otherwise valid since `2^64 - 1 < n`), then
`H*.multiply(blind)` throws when the reduced blinding is zero. -/
def pedersenCommit64 (value r : Nat) (assetId : Option Bytes) : Option Pt :=
  if value > 0xffffffffffffffff then none  -- 'value must be 0..2^64-1'
  else if value = 0 then none              -- G.multiply(0) invalid scalar
  else if r % secpN = 0 then none          -- H*.multiply(0) invalid scalar
  else some (ptAdd (ptMul value Gpt) (ptMul (r % secpN) (getAssetH hH assetHfn assetId)))

end Pedersen

/-! ## Covenant layer (`src/covenants.js`, `src/proofs.js`) -/

section Covenant

variable (hash160B : Bytes → Bytes)

/-- `toBobHash20`: accept a 33-byte compressed pubkey (hash it) or a
20-byte hash160 (use as-is); otherwise throw. -/
def toBobHash20 (bobKeyOrHash : Bytes) : Except String Bytes :=
  if bobKeyOrHash.length = 33 then .ok (hash160B bobKeyOrHash)
  else if bobKeyOrHash.length = 20 then .ok bobKeyOrHash
  else .error "bobKeyOrHash must be 33-byte compressed pubkey or 20-byte hash160"

/-- Modelled from the spec: `getP2SHScript` from the missing `src/tx.js`
— the standard P2SH hash-and-compare wrapper
`OP_HASH160 <push-20 hash> OP_EQUAL`. -/
def getP2SHScript (h : Bytes) : Bytes := [0xa9, 0x14] ++ h ++ [0x87]

/-- `createCovenant(bobKeyOrHash, proofHash32?)`; the compiled template
tail comes from `artifact.json` (external) and is parametrised as
`templateBytecode`.  Returns `(covenantBytecode, covenantScript)`. -/
def createCovenant (templateBytecode : Bytes) (bobKeyOrHash : Bytes)
    (proofHash32 : Option Bytes) : Except String (Bytes × Bytes) :=
  match toBobHash20 hash160B bobKeyOrHash with
  | .error e => .error e
  | .ok bobHash20 =>
    let pushBobGuard := 0x14 :: bobHash20            -- PUSHDATA(20) bobHash20
    match proofHash32 with
    | some p =>
      if p.length ≠ 32 then
        .error "proofHash32 must be a 32-byte Uint8Array when provided"
      else
        -- PUSHDATA(32) proofHash32, OP_DROP, then the Bob guard
        let header := (0x20 :: p) ++ [0x75] ++ pushBobGuard
        let redeemScript := header ++ templateBytecode
        .ok (redeemScript, getP2SHScript (hash160B redeemScript))
    | none =>
      let redeemScript := pushBobGuard ++ templateBytecode
      .ok (redeemScript, getP2SHScript (hash160B redeemScript))

/-- Result of `extractPayHashFromRedeemScript`. -/
structure PayHashResult where
  payHash20 : Bytes
  offset : Nat
  deriving DecidableEq

/-- The fixed-width guard read at cursor `i`: PUSHDATA(20) then 20 bytes
(the tail of `extractPayHashFromRedeemScript`).  JS out-of-range reads
give `undefined`, which fails the `=== 0x14` comparison exactly as the
`getD _ 0` default does. -/
def extractGuardAt (rs : Bytes) (i : Nat) : Except String PayHashResult :=
  if rs.getD i 0 ≠ 0x14 then
    .error "Unexpected covenant header: missing PUSHDATA(20) for bobHash160"
  else
    let startHash := i + 1
    let endHash := startHash + 20
    if endHash > rs.length then .error "redeemScript too short for bobHash160"
    else .ok ⟨(rs.drop startHash).take 20, endHash⟩

/-- `extractPayHashFromRedeemScript(redeemScript)` from `src/proofs.js`:
skip the optional `0x20 <32-byte proofHash> OP_DROP` header, then read
the PUSHDATA(20) guard hash; throw on malformed input. -/
def extractPayHashFromRedeemScript (rs : Bytes) : Except String PayHashResult :=
  if rs.length < 1 + 20 then .error "redeemScript too short"
  else if rs.getD 0 0 = 0x20 then
    -- optional header: 0x20 <32 bytes proofHash> 0x75 (OP_DROP)
    let len := rs.getD 0 0            -- should be 32
    let start := 0 + 1
    let endP := start + len
    if endP + 1 > rs.length then .error "redeemScript too short for proofHash32 header"
    else
      let opDrop := rs.getD endP 0
      if opDrop ≠ 0x75 then .error "Expected OP_DROP after proofHash32 header"
      else extractGuardAt rs (endP + 1)
  else extractGuardAt rs 0

/-- `assertCovenantWillPassEqVerifies({redeemScript, payPub33,
vout0Value, decryptedAmount})` from `src/proofs.js`: check
`HASH160(payPub33)` against the embedded guard hash, then the designated
output value against the asserted amount; throw on either mismatch.
Values are `Int` (the JS `BigInt(x)` conversions). -/
def assertCovenantWillPassEqVerifies (redeemScript payPub33 : Bytes)
    (vout0Value decryptedAmount : Int) : Except String Unit :=
  match extractPayHashFromRedeemScript redeemScript with
  | .error e => .error e
  | .ok r =>
    if hash160B payPub33 ≠ r.payHash20 then
      .error "Covenant guard failed: HASH160(pay pub) mismatch"
    else if vout0Value ≠ decryptedAmount then
      .error "Covenant guard failed: vout0.value != decryptedAmount"
    else .ok ()

end Covenant

/-! ## Serialization round-trip lemmas -/

section SerialLemmas

variable (sha256B : Bytes → Bytes) (hH : Pt) (ptB : Pt → Bytes)
variable (ptOfB : Bytes → Option Pt)

end SerialLemmas

/-! ## Envelope-pipeline lemmas -/

section Pipeline

variable (sha256B : Bytes → Bytes) (hH : Pt) (ptB : Pt → Bytes)
variable (ptOfB : Bytes → Option Pt)

end Pipeline

/-! ## Last-byte tampering -/

/-- XOR the last byte of a byte string with `1` (the spec's tamper
scenario). -/
def flipLastByte (l : Bytes) : Bytes := l.dropLast ++ [l.getLastD 0 ^^^ 1]

theorem flipLastByte_length (l : Bytes) (hl : l ≠ []) :
    (flipLastByte l).length = l.length := by
  unfold flipLastByte
  simp [List.length_dropLast]
  cases l with
  | nil => simp at hl
  | cons x xs => simp

/-- A concrete stand-in for the external sha256. -/
def sha0 : Bytes → Bytes := fun _ => List.replicate 32 1

/-- A concrete stand-in for the second generator `H`. -/
def hH0 : Pt := 2

/-- A concrete injective 33-byte point encoding. -/
def ptB0 : Pt → Bytes := fun p => 2 :: bigIntToBytes p.val 32

/-- Decoder for `ptB0`. -/
def ptOfB0 : Bytes → Option Pt := fun b =>
  if b.length = 33 ∧ b.headI = 2 then some ((bytesToBigInt (b.drop 1) : Nat) : Pt)
  else none

/-- A concrete stand-in for the external `_hash160`. -/
def hash1600 : Bytes → Bytes := fun _ => List.replicate 20 7

/-- A concrete 32-byte seed. -/
def seed0 : Bytes := List.replicate 32 0

/-- A concrete 33-byte ephemeral key. -/
def eph0 : Bytes := List.replicate 33 2

/-- `parse_frame` without trailing bytes. -/
theorem parse_frame_nil (hdr core : Bytes)
    (hh : hdr.length < 2 ^ 64) (hc : core.length < 2 ^ 64) :
    parseProofEnvelope (magicCTv1 ++ vbytes hdr ++ vbytes core) = some (hdr, core) := by
  have h := parse_frame hdr core [] hh hc
  rwa [List.append_nil] at h

theorem getD_append_cons (A : Bytes) (b : Nat) (rest : Bytes) (d : Nat) :
    (A ++ b :: rest).getD A.length d = b := by
  rw [List.getD_eq_getElem?_getD, List.getElem?_append_right (Nat.le_refl _)]
  simp

section CovenantLemmas

variable (hash160B : Bytes → Bytes)

/-- `createCovenant` with a 20-byte guard and a 32-byte proof hash. -/
theorem createCovenant_proof_eq (templateBytecode guard p : Bytes)
    (hg : guard.length = 20) (hp : p.length = 32) :
    createCovenant hash160B templateBytecode guard (some p) =
      .ok ((0x20 :: p) ++ [0x75] ++ (0x14 :: guard) ++ templateBytecode,
        getP2SHScript (hash160B
          ((0x20 :: p) ++ [0x75] ++ (0x14 :: guard) ++ templateBytecode))) := by
  unfold createCovenant toBobHash20
  rw [if_neg (by omega : ¬ guard.length = 33), if_pos hg]
  simp only
  rw [if_neg (by omega : ¬ p.length ≠ 32)]

/-- `createCovenant` with a 20-byte guard and no proof hash. -/
theorem createCovenant_noproof_eq (templateBytecode guard : Bytes)
    (hg : guard.length = 20) :
    createCovenant hash160B templateBytecode guard none =
      .ok ((0x14 :: guard) ++ templateBytecode,
        getP2SHScript (hash160B ((0x14 :: guard) ++ templateBytecode))) := by
  unfold createCovenant toBobHash20
  rw [if_neg (by omega : ¬ guard.length = 33), if_pos hg]

/-- A supplied proof hash that is not 32 bytes is rejected. -/
theorem createCovenant_badproof (templateBytecode guard p : Bytes)
    (hg : guard.length = 20) (hp : p.length ≠ 32) :
    createCovenant hash160B templateBytecode guard (some p) =
      .error "proofHash32 must be a 32-byte Uint8Array when provided" := by
  unfold createCovenant toBobHash20
  rw [if_neg (by omega : ¬ guard.length = 33), if_pos hg]
  simp only
  rw [if_pos hp]

/-- A 33-byte key is first reduced to its hash160. -/
theorem createCovenant_pubkey (templateBytecode key : Bytes) (g : Bytes)
    (hk : key.length = 33) (hkey : hash160B key = g) (hg : g.length = 20)
    (o : Option Bytes) :
    createCovenant hash160B templateBytecode key o =
      createCovenant hash160B templateBytecode g o := by
  unfold createCovenant toBobHash20
  rw [if_pos hk, if_neg (by omega : ¬ g.length = 33), if_pos hg, hkey]

/-- Extraction from a `createCovenant` redeem script with the optional
proof-hash header. -/
theorem extract_proof_header (templateBytecode guard p : Bytes)
    (hg : guard.length = 20) (hp : p.length = 32) :
    extractPayHashFromRedeemScript
      ((0x20 :: p) ++ [0x75] ++ (0x14 :: guard) ++ templateBytecode) =
      .ok ⟨guard, 55⟩ := by
  have hshape : (0x20 :: p) ++ [0x75] ++ (0x14 :: guard) ++ templateBytecode =
      0x20 :: (p ++ (0x75 :: (0x14 :: (guard ++ templateBytecode)))) := by
    simp
  rw [hshape]
  have hlen : (0x20 :: (p ++ (0x75 :: (0x14 :: (guard ++ templateBytecode))))).length =
      55 + templateBytecode.length := by
    simp [hp, hg]
    omega
  unfold extractPayHashFromRedeemScript
  rw [if_neg (by rw [hlen]; omega)]
  rw [if_pos (by rw [show ((0x20 : Nat) :: (p ++ (0x75 :: (0x14 :: (guard ++
    templateBytecode))))).getD 0 0 = 0x20 from rfl])]
  simp only [List.getD_cons_zero]
  rw [if_neg (by rw [hlen]; omega)]
  have hdrop33 : ((0x20 : Nat) :: (p ++ (0x75 :: (0x14 :: (guard ++
      templateBytecode))))).getD (0 + 1 + 0x20) 0 = 0x75 := by
    rw [show (0x20 : Nat) :: (p ++ (0x75 :: (0x14 :: (guard ++ templateBytecode)))) =
      ((0x20 :: p) ++ (0x75 :: (0x14 :: (guard ++ templateBytecode)))) by simp,
      show (0 + 1 + 0x20 : Nat) = ((0x20 : Nat) :: p).length by simp [hp]]
    exact getD_append_cons _ _ _ _
  rw [hdrop33]
  rw [if_neg (by norm_num)]
  unfold extractGuardAt
  have hget34 : ((0x20 : Nat) :: (p ++ (0x75 :: (0x14 :: (guard ++
      templateBytecode))))).getD (0 + 1 + 0x20 + 1) 0 = 0x14 := by
    rw [show (0x20 : Nat) :: (p ++ (0x75 :: (0x14 :: (guard ++ templateBytecode)))) =
      (((0x20 :: p) ++ [0x75]) ++ (0x14 :: (guard ++ templateBytecode))) by simp,
      show (0 + 1 + 0x20 + 1 : Nat) = (((0x20 : Nat) :: p) ++ [0x75]).length by simp [hp]]
    exact getD_append_cons _ _ _ _
  rw [hget34]
  rw [if_neg (by norm_num)]
  rw [if_neg (by rw [hlen]; omega)]
  have hslice : (((0x20 : Nat) :: (p ++ (0x75 :: (0x14 :: (guard ++
      templateBytecode))))).drop (0 + 1 + 0x20 + 1 + 1)).take 20 = guard := by
    rw [show (0x20 : Nat) :: (p ++ (0x75 :: (0x14 :: (guard ++ templateBytecode)))) =
      ((0x20 :: p) ++ [0x75] ++ [0x14]) ++ (guard ++ templateBytecode) by simp,
      show (0 + 1 + 0x20 + 1 + 1 : Nat) =
        (((0x20 : Nat) :: p) ++ [0x75] ++ [0x14]).length by simp [hp]]
    rw [List.drop_left]
    exact List.take_left' hg
  rw [hslice]

/-- Extraction from a `createCovenant` redeem script without the
proof-hash header. -/
theorem extract_no_header (templateBytecode guard : Bytes)
    (hg : guard.length = 20) :
    extractPayHashFromRedeemScript ((0x14 :: guard) ++ templateBytecode) =
      .ok ⟨guard, 21⟩ := by
  have hlen : (((0x14 : Nat) :: guard) ++ templateBytecode).length =
      21 + templateBytecode.length := by
    simp [hg]
    omega
  unfold extractPayHashFromRedeemScript
  rw [if_neg (by rw [hlen]; omega)]
  rw [if_neg (by norm_num : ¬ (((0x14 : Nat) :: guard) ++
    templateBytecode).getD 0 0 = 0x20)]
  unfold extractGuardAt
  rw [if_neg (by norm_num : ¬ (((0x14 : Nat) :: guard) ++
    templateBytecode).getD 0 0 ≠ 0x14)]
  rw [if_neg (by rw [hlen]; omega)]
  have hslice : (((((0x14 : Nat) :: guard) ++ templateBytecode)).drop (0 + 1)).take 20 =
      guard := by
    rw [show ((0x14 : Nat) :: guard) ++ templateBytecode =
      [0x14] ++ (guard ++ templateBytecode) by simp,
      show (0 + 1 : Nat) = ([0x14] : Bytes).length by simp]
    rw [List.drop_left]
    exact List.take_left' hg
  rw [hslice]

/-- `assertCovenantWillPassEqVerifies` succeeds exactly when both the
hash and the value comparisons hold, given a successful extraction. -/
theorem assert_iff_of_extract (rs payPub : Bytes) (v d : Int)
    (guard : Bytes) (off : Nat)
    (hex : extractPayHashFromRedeemScript rs = .ok ⟨guard, off⟩) :
    (assertCovenantWillPassEqVerifies hash160B rs payPub v d = .ok ()) ↔
      (hash160B payPub = guard ∧ v = d) := by
  unfold assertCovenantWillPassEqVerifies
  rw [hex]
  by_cases h1 : hash160B payPub = guard
  · by_cases h2 : v = d
    · simp [h1, h2]
    · simp [h1, h2]
  · simp [h1]

end CovenantLemmas

/-- C3: `verifyAmountProofEnvelope` depends only on the framing and the
core proof bytes: two well-framed envelopes with identical core bytes but
arbitrary different header contents verify identically.  (Stated for
built envelopes with headers short enough to frame.) -/
theorem claim_C3_header_independence (sha256B : Bytes → Bytes) (hH : Pt)
    (ptB : Pt → Bytes) (ptOfB : Bytes → Option Pt) (a1 a2 : EnvelopeArgs)
    (hcore : a1.coreProofBytes = a2.coreProofBytes)
    (hh1 : (envHeader a1).length < 2 ^ 64) (hh2 : (envHeader a2).length < 2 ^ 64)
    (hc : a1.coreProofBytes.length < 2 ^ 64) :
    verifyAmountProofEnvelope sha256B hH ptB ptOfB (buildProofEnvelope a1) =
      verifyAmountProofEnvelope sha256B hH ptB ptOfB (buildProofEnvelope a2) := by
  have p1 := parse_frame_nil (envHeader a1) a1.coreProofBytes hh1 hc
  have p2 := parse_frame_nil (envHeader a2) a2.coreProofBytes hh2 (hcore ▸ hc)
  unfold verifyAmountProofEnvelope
  rw [show buildProofEnvelope a1 =
      magicCTv1 ++ vbytes (envHeader a1) ++ vbytes a1.coreProofBytes from rfl,
    show buildProofEnvelope a2 =
      magicCTv1 ++ vbytes (envHeader a2) ++ vbytes a2.coreProofBytes from rfl,
    p1, p2]
  simp only
  rw [hcore]

/-- Witness for C3: two envelopes with the same 3-byte core and different
headers (different tag, range bits, keys, asset id, index, context)
verify identically. -/
theorem claim_C3_witness :
    verifyAmountProofEnvelope sha0 hH0 ptB0 ptOfB0
      (buildProofEnvelope ⟨[1], 1, [2], [3], none, 0, [], [9, 9, 9]⟩) =
    verifyAmountProofEnvelope sha0 hH0 ptB0 ptOfB0
      (buildProofEnvelope ⟨[2], 2, [4], [5], some [7], 3, [8], [9, 9, 9]⟩) :=
  claim_C3_header_independence sha0 hH0 ptB0 ptOfB0 _ _ rfl
    (by decide) (by decide) (by decide)

/-- C4 (corrected): on every input where neither function throws
(`1 ≤ v < 2^64` and blinding nonzero mod `n`), `pedersenCommit` in zk.js
returns `v*H + r*G`, but `pedersenCommit64` in pedersen.js returns
`v*G + r*H` — the generator roles are swapped (blinding reduced mod the
curve order in both). -/
theorem claim_C4_amended (hH : Pt) (assetHfn : Bytes → Pt) (v r : Nat)
    (hv1 : 1 ≤ v) (hv : v < 2 ^ 64) (hr : r % secpN ≠ 0) :
    pedersenCommit hH v r = some (ptAdd (ptMul v hH) (ptMul r Gpt)) ∧
    pedersenCommit64 hH assetHfn v r none =
      some (ptAdd (ptMul v Gpt) (ptMul r hH)) := by
  have hvn : v < secpN := lt_trans hv (by decide)
  constructor
  · unfold pedersenCommit
    rw [if_neg (by omega), if_neg hr]
    simp [ptAdd, ptMul, natCast_mod_secpN]
  · unfold pedersenCommit64
    rw [if_neg (by omega), if_neg (by omega), if_neg hr]
    simp [getAssetH, ptAdd, ptMul, natCast_mod_secpN]

/-- Witness for C4's amended statement at `v = 1`, `r = 3`. -/
theorem claim_C4_witness :
    pedersenCommit hH0 1 3 = some (ptAdd (ptMul 1 hH0) (ptMul 3 Gpt)) ∧
    pedersenCommit64 hH0 (fun _ => (0 : Pt)) 1 3 none =
      some (ptAdd (ptMul 1 Gpt) (ptMul 3 hH0)) :=
  claim_C4_amended hH0 (fun _ => (0 : Pt)) 1 3 (by decide) (by decide) (by decide)

/-- Counterexample to C4 as stated: with the second generator
instantiated at discrete log 2 (any `H ≠ G` behaves the same),
`pedersenCommit64(1, 2, null)` — a call the source executes without
throwing — is **not** `1*H + 2*G` (discrete log `2 + 2 = 4`): the code
computes `1*G + 2*H` (discrete log `1 + 4 = 5`) instead. -/
theorem claim_C4_counterexample :
    pedersenCommit64 (2 : Pt) (fun _ => (0 : Pt)) 1 2 none ≠
      some (ptAdd (ptMul 1 (2 : Pt)) (ptMul 2 Gpt)) := by
  unfold pedersenCommit64 getAssetH
  rw [if_neg (by norm_num), if_neg (by norm_num), if_neg (by decide)]
  simp only [ptAdd, ptMul, Gpt, Option.some.injEq]
  intro h
  rw [natCast_mod_secpN] at h
  revert h
  decide

/-- C8: `parseProofEnvelope (buildProofEnvelope args)` returns exactly
the framed header bytes and the original core proof bytes (headers and
cores must be CompactSize-framable, i.e. shorter than `2^64`). -/
theorem claim_C8_roundtrip (a : EnvelopeArgs)
    (hh : (envHeader a).length < 2 ^ 64) (hc : a.coreProofBytes.length < 2 ^ 64) :
    parseProofEnvelope (buildProofEnvelope a) =
      some (envHeader a, a.coreProofBytes) := by
  have h := parse_build_with_junk a [] hh hc
  rwa [List.append_nil] at h

/-- Witness for C8 on a small concrete envelope. -/
theorem claim_C8_witness :
    parseProofEnvelope (buildProofEnvelope ⟨[7, 7], 64, [1], [2], some [3], 5, [4], [8, 9]⟩) =
      some (envHeader ⟨[7, 7], 64, [1], [2], some [3], 5, [4], [8, 9]⟩, [8, 9]) :=
  claim_C8_roundtrip ⟨[7, 7], 64, [1], [2], some [3], 5, [4], [8, 9]⟩
    (by decide) (by decide)

/-- Counterexample to C9 as stated: an envelope with a trailing byte
appended is *not* rejected — `parseProofEnvelope` parses it to the very
same header and core. -/
theorem claim_C9_counterexample :
    parseProofEnvelope (buildProofEnvelope ⟨[], 0, [], [], none, 0, [], [1, 2, 3]⟩ ++ [0]) =
      some (envHeader ⟨[], 0, [], [], none, 0, [], [1, 2, 3]⟩, [1, 2, 3]) := by
  decide

/-- C9 (corrected): `parseProofEnvelope` rejects inputs shorter than the
4-byte magic and inputs whose first four bytes are not `'CTv1'`, but it
does **not** reject over-length inputs: bytes after the framed core are
ignored and the parse result is unchanged. -/
theorem claim_C9_amended :
    (∀ e : Bytes, e.length < 4 → parseProofEnvelope e = none) ∧
    (∀ e : Bytes, e.take 4 ≠ magicCTv1 → parseProofEnvelope e = none) ∧
    (∀ (a : EnvelopeArgs) (junk : Bytes),
      (envHeader a).length < 2 ^ 64 → a.coreProofBytes.length < 2 ^ 64 →
      parseProofEnvelope (buildProofEnvelope a ++ junk) =
        parseProofEnvelope (buildProofEnvelope a)) := by
  refine ⟨?_, ?_, ?_⟩
  · intro e h
    unfold parseProofEnvelope
    rw [if_pos h]
  · intro e h
    unfold parseProofEnvelope
    by_cases hl : e.length < 4
    · rw [if_pos hl]
    · rw [if_neg hl, if_pos h]
  · intro a junk hh hc
    rw [parse_build_with_junk a junk hh hc,
      show buildProofEnvelope a = buildProofEnvelope a ++ [] from (List.append_nil _).symm,
      parse_build_with_junk a [] hh hc]

/-- Witness for C9's amended statement: a short input is rejected, a
wrong-magic input is rejected, and appending a byte to a concrete
envelope leaves the parse unchanged. -/
theorem claim_C9_witness :
    parseProofEnvelope [1, 2] = none ∧
    parseProofEnvelope [9, 9, 9, 9, 9] = none ∧
    parseProofEnvelope (buildProofEnvelope ⟨[], 0, [], [], none, 0, [], [4]⟩ ++ [7]) =
      parseProofEnvelope (buildProofEnvelope ⟨[], 0, [], [], none, 0, [], [4]⟩) :=
  ⟨claim_C9_amended.1 [1, 2] (by decide),
   claim_C9_amended.2.1 [9, 9, 9, 9, 9] (by decide),
   claim_C9_amended.2.2 ⟨[], 0, [], [], none, 0, [], [4]⟩ [7] (by decide) (by decide)⟩

/-- C10: proof generation and envelope construction are pure functions of
their explicit inputs — identical inputs give identical proofs, envelopes
and derived hashes/commitments (there is no hidden nondeterministic or
mutable-state input in the model, matching the source's absence of any
RNG or global state in these functions). -/
theorem claim_C10_determinism (sha256B : Bytes → Bytes) (hH : Pt) (ptB : Pt → Bytes)
    (v₁ v₂ : Nat) (seed₁ seed₂ : Bytes)
    (value₁ value₂ : Nat) (zkSeed₁ zkSeed₂ ephem₁ ephem₂ : Bytes)
    (asset₁ asset₂ : Option Bytes) (idx₁ idx₂ : Nat) (ctx₁ ctx₂ : Bytes)
    (hv : v₁ = v₂) (hs : seed₁ = seed₂) (hval : value₁ = value₂)
    (hzk : zkSeed₁ = zkSeed₂) (heph : ephem₁ = ephem₂) (hass : asset₁ = asset₂)
    (hidx : idx₁ = idx₂) (hctx : ctx₁ = ctx₂) :
    generateSigmaRangeProof sha256B hH ptB v₁ seed₁ =
      generateSigmaRangeProof sha256B hH ptB v₂ seed₂ ∧
    buildAmountProofEnvelope sha256B hH ptB value₁ zkSeed₁ ephem₁ asset₁ idx₁ ctx₁ =
      buildAmountProofEnvelope sha256B hH ptB value₂ zkSeed₂ ephem₂ asset₂ idx₂ ctx₂ := by
  subst hv hs hval hzk heph hass hidx hctx
  exact ⟨rfl, rfl⟩

/-- C5: `createCovenant` builds the redeem script
`[push-32 proofHash, OP_DROP]? || push-20 guard || template` and the
standard P2SH wrapping of its hash160; a supplied proof hash that is not
32 bytes is rejected; a 33-byte public key is first reduced to its
hash160. -/
theorem claim_C5_createCovenant (hash160B : Bytes → Bytes)
    (templateBytecode guard p key : Bytes) (o : Option Bytes)
    (hg : guard.length = 20) (hk : key.length = 33) (hkey : hash160B key = guard) :
    (p.length = 32 → createCovenant hash160B templateBytecode guard (some p) =
      .ok ((0x20 :: p) ++ [0x75] ++ (0x14 :: guard) ++ templateBytecode,
        getP2SHScript (hash160B
          ((0x20 :: p) ++ [0x75] ++ (0x14 :: guard) ++ templateBytecode)))) ∧
    (p.length ≠ 32 → createCovenant hash160B templateBytecode guard (some p) =
      .error "proofHash32 must be a 32-byte Uint8Array when provided") ∧
    (createCovenant hash160B templateBytecode guard none =
      .ok ((0x14 :: guard) ++ templateBytecode,
        getP2SHScript (hash160B ((0x14 :: guard) ++ templateBytecode)))) ∧
    (createCovenant hash160B templateBytecode key o =
      createCovenant hash160B templateBytecode guard o) :=
  ⟨fun hp => createCovenant_proof_eq hash160B templateBytecode guard p hg hp,
   fun hp => createCovenant_badproof hash160B templateBytecode guard p hg hp,
   createCovenant_noproof_eq hash160B templateBytecode guard hg,
   createCovenant_pubkey hash160B templateBytecode key guard hk hkey hg o⟩

/-- Witness for C5 at concrete inputs. -/
theorem claim_C5_witness :
    (List.replicate 32 9 |> fun p =>
      (p.length = 32 → createCovenant hash1600 [0xAA] (List.replicate 20 7) (some p) =
        .ok ((0x20 :: p) ++ [0x75] ++ (0x14 :: List.replicate 20 7) ++ [0xAA],
          getP2SHScript (hash1600
            ((0x20 :: p) ++ [0x75] ++ (0x14 :: List.replicate 20 7) ++ [0xAA])))) ∧
      (p.length ≠ 32 → createCovenant hash1600 [0xAA] (List.replicate 20 7) (some p) =
        .error "proofHash32 must be a 32-byte Uint8Array when provided") ∧
      (createCovenant hash1600 [0xAA] (List.replicate 20 7) none =
        .ok ((0x14 :: List.replicate 20 7) ++ [0xAA],
          getP2SHScript (hash1600 ((0x14 :: List.replicate 20 7) ++ [0xAA])))) ∧
      (createCovenant hash1600 [0xAA] (List.replicate 33 1) none =
        createCovenant hash1600 [0xAA] (List.replicate 20 7) none)) :=
  claim_C5_createCovenant hash1600 [0xAA] (List.replicate 20 7)
    (List.replicate 32 9) (List.replicate 33 1) none
    (by simp) (by simp) (by simp [hash1600])

/-- C6: for a redeem script produced by `createCovenant`,
`assertCovenantWillPassEqVerifies` returns normally **iff** the hash160
of the unlocking public key equals the embedded guard hash **and** the
designated output value equals the asserted amount; otherwise it
throws. -/
theorem claim_C6_assert_iff (hash160B : Bytes → Bytes)
    (templateBytecode guard payPub : Bytes) (op : Option Bytes)
    (rs cov : Bytes) (v d : Int)
    (hg : guard.length = 20)
    (hop : op = none ∨ ∃ p, op = some p ∧ p.length = 32)
    (hcreate : createCovenant hash160B templateBytecode guard op = .ok (rs, cov)) :
    (assertCovenantWillPassEqVerifies hash160B rs payPub v d = .ok ()) ↔
      (hash160B payPub = guard ∧ v = d) := by
  rcases hop with hnone | ⟨p, hsome, hp⟩
  · subst hnone
    rw [createCovenant_noproof_eq hash160B templateBytecode guard hg] at hcreate
    injection hcreate with h
    injection h with h1 h2
    exact assert_iff_of_extract hash160B rs payPub v d guard 21
      (h1 ▸ extract_no_header templateBytecode guard hg)
  · subst hsome
    rw [createCovenant_proof_eq hash160B templateBytecode guard p hg hp] at hcreate
    injection hcreate with h
    injection h with h1 h2
    exact assert_iff_of_extract hash160B rs payPub v d guard 55
      (h1 ▸ extract_proof_header templateBytecode guard p hg hp)

/-- Witness for C6 at concrete inputs (both equalities hold, so the
assertion succeeds). -/
theorem claim_C6_witness :
    (assertCovenantWillPassEqVerifies hash1600
      ((0x14 :: List.replicate 20 7) ++ [0xAA]) (List.replicate 33 1) 5 5 = .ok ()) ↔
      (hash1600 (List.replicate 33 1) = List.replicate 20 7 ∧ (5 : Int) = 5) :=
  claim_C6_assert_iff hash1600 [0xAA] (List.replicate 20 7) (List.replicate 33 1)
    none ((0x14 :: List.replicate 20 7) ++ [0xAA])
    (getP2SHScript (hash1600 ((0x14 :: List.replicate 20 7) ++ [0xAA]))) 5 5
    (by simp) (Or.inl rfl)
    (createCovenant_noproof_eq hash1600 [0xAA] (List.replicate 20 7) (by simp))

/-- C7: the guard-hash extractor returns exactly the embedded 20-byte
guard from every `createCovenant` redeem script (with or without the
proof-hash header), and throws on the malformed shapes: input shorter
than 21 bytes, a guard-position byte that is not `0x14` (both without a
header and after a well-formed `0x20 … OP_DROP` header), a `0x20` header
not followed by `OP_DROP`, a `0x20` header with too few bytes, and a
guard push that overruns the script. -/
theorem claim_C7_extract (hash160B : Bytes → Bytes)
    (templateBytecode guard p : Bytes)
    (hg : guard.length = 20) (hp : p.length = 32) :
    (extractPayHashFromRedeemScript
      ((0x20 :: p) ++ [0x75] ++ (0x14 :: guard) ++ templateBytecode) =
        .ok ⟨guard, 55⟩) ∧
    (extractPayHashFromRedeemScript ((0x14 :: guard) ++ templateBytecode) =
      .ok ⟨guard, 21⟩) ∧
    (∀ bs : Bytes, bs.length < 21 →
      ∃ e, extractPayHashFromRedeemScript bs = .error e) ∧
    (∀ bs : Bytes, 21 ≤ bs.length → bs.getD 0 0 ≠ 0x20 → bs.getD 0 0 ≠ 0x14 →
      ∃ e, extractPayHashFromRedeemScript bs = .error e) ∧
    (∀ bs : Bytes, bs.getD 0 0 = 0x20 → bs.length < 34 →
      ∃ e, extractPayHashFromRedeemScript bs = .error e) ∧
    (∀ bs : Bytes, bs.getD 0 0 = 0x20 → 34 ≤ bs.length → bs.getD 33 0 ≠ 0x75 →
      ∃ e, extractPayHashFromRedeemScript bs = .error e) ∧
    (∀ bs : Bytes, bs.getD 0 0 = 0x20 → 34 ≤ bs.length → bs.getD 33 0 = 0x75 →
      bs.getD 34 0 ≠ 0x14 →
      ∃ e, extractPayHashFromRedeemScript bs = .error e) ∧
    (∀ bs : Bytes, bs.getD 0 0 = 0x20 → 34 ≤ bs.length → bs.getD 33 0 = 0x75 →
      bs.getD 34 0 = 0x14 → bs.length < 55 →
      ∃ e, extractPayHashFromRedeemScript bs = .error e) := by
  refine ⟨extract_proof_header templateBytecode guard p hg hp,
    extract_no_header templateBytecode guard hg, ?_, ?_, ?_, ?_, ?_, ?_⟩
  · intro bs h
    unfold extractPayHashFromRedeemScript
    rw [if_pos h]
    exact ⟨_, rfl⟩
  · intro bs h1 h2 h3
    unfold extractPayHashFromRedeemScript
    rw [if_neg (by omega), if_neg h2]
    unfold extractGuardAt
    rw [if_pos h3]
    exact ⟨_, rfl⟩
  · intro bs h1 h2
    unfold extractPayHashFromRedeemScript
    by_cases hs : bs.length < 21
    · rw [if_pos hs]
      exact ⟨_, rfl⟩
    · rw [if_neg hs, if_pos h1, h1]
      rw [if_pos (by omega)]
      exact ⟨_, rfl⟩
  · intro bs h1 h2 h3
    unfold extractPayHashFromRedeemScript
    rw [if_neg (by omega), if_pos h1, h1]
    rw [if_neg (by omega)]
    rw [if_pos (by simpa using h3)]
    exact ⟨_, rfl⟩
  · intro bs h1 h2 h3 h4
    unfold extractPayHashFromRedeemScript
    rw [if_neg (by omega), if_pos h1, h1]
    rw [if_neg (by omega)]
    rw [if_neg (by simpa using h3)]
    unfold extractGuardAt
    rw [if_pos (by simpa using h4)]
    exact ⟨_, rfl⟩
  · intro bs h1 h2 h3 h4 h5
    unfold extractPayHashFromRedeemScript
    rw [if_neg (by omega), if_pos h1, h1]
    rw [if_neg (by omega)]
    rw [if_neg (by simpa using h3)]
    unfold extractGuardAt
    rw [if_neg (by simpa using h4)]
    rw [if_pos (by omega)]
    exact ⟨_, rfl⟩

/-- Witness for C7 at concrete inputs. -/
theorem claim_C7_witness :
    (extractPayHashFromRedeemScript
      ((0x20 :: List.replicate 32 9) ++ [0x75] ++ (0x14 :: List.replicate 20 7) ++ [0xAA]) =
        .ok ⟨List.replicate 20 7, 55⟩) ∧
    (extractPayHashFromRedeemScript ((0x14 :: List.replicate 20 7) ++ [0xAA]) =
      .ok ⟨List.replicate 20 7, 21⟩) :=
  ⟨(claim_C7_extract hash1600 [0xAA] (List.replicate 20 7) (List.replicate 32 9)
      (by simp) (by simp)).1,
   (claim_C7_extract hash1600 [0xAA] (List.replicate 20 7) (List.replicate 32 9)
      (by simp) (by simp)).2.1⟩

/-- Witness for C10 at concrete inputs. -/
theorem claim_C10_witness :
    generateSigmaRangeProof sha0 hH0 ptB0 5 seed0 =
      generateSigmaRangeProof sha0 hH0 ptB0 5 seed0 ∧
    buildAmountProofEnvelope sha0 hH0 ptB0 1 seed0 eph0 none 0 [] =
      buildAmountProofEnvelope sha0 hH0 ptB0 1 seed0 eph0 none 0 [] :=
  claim_C10_determinism sha0 hH0 ptB0 5 5 seed0 seed0 1 1 seed0 seed0 eph0 eph0
    none none 0 0 [] [] rfl rfl rfl rfl rfl rfl rfl rfl

end CT
